import Mathlib

/-!
Verification of the purchase-forecast pipeline in src/PurchaseForecast.js.

The file shallowly embeds the data-preparation, scaling, feature and horizon
logic of the component.  JavaScript numbers are modelled by `JsNum`: an exact
rational together with the three IEEE special values NaN, +Infinity and
-Infinity; the arithmetic operations implement the JavaScript semantics on
these values (NaN propagation, signed infinities, truncated remainder).
Working over exact rationals idealises double-precision rounding away, which
is the standard reading of the spec's "within floating-point tolerance".

External collaborators are abstracted exactly where the source calls them:
`Math.sin`/`Math.cos` and the fitted tensorflow model enter `predictSales`
and the training-feature builder as opaque function parameters, since no
claim depends on actual trigonometric or model values — only on the phases
fed to them and on the shape of the data around them.
-/

set_option maxHeartbeats 1000000

namespace PurchaseForecast

/-- JavaScript number: NaN, signed infinities, or a finite value (modelled as
an exact rational). -/
inductive JsNum where
  | nan
  | posInf
  | negInf
  | fin (q : ℚ)
deriving DecidableEq

open JsNum

/-- JavaScript truthiness of a number: `0` and `NaN` are falsy. -/
def jsTruthy : JsNum → Bool
  | nan => false
  | fin q => q != 0
  | _ => true

/-- JavaScript truthiness of a string: only the empty string is falsy. -/
def strTruthy (s : String) : Bool := !(s == "")

/-- The test `isNaN(x)` on a number. -/
def jsIsNaN : JsNum → Bool
  | nan => true
  | _ => false

/-- JavaScript unary minus. -/
def jsNeg : JsNum → JsNum
  | nan => nan
  | posInf => negInf
  | negInf => posInf
  | fin q => fin (-q)

/-- JavaScript addition. -/
def jsAdd : JsNum → JsNum → JsNum
  | nan, _ => nan
  | _, nan => nan
  | posInf, negInf => nan
  | negInf, posInf => nan
  | posInf, _ => posInf
  | _, posInf => posInf
  | negInf, _ => negInf
  | _, negInf => negInf
  | fin a, fin b => fin (a + b)

/-- JavaScript subtraction (`a - b = a + (-b)`). -/
def jsSub (a b : JsNum) : JsNum := jsAdd a (jsNeg b)

/-- JavaScript multiplication. -/
def jsMul : JsNum → JsNum → JsNum
  | nan, _ => nan
  | _, nan => nan
  | posInf, posInf => posInf
  | posInf, negInf => negInf
  | negInf, posInf => negInf
  | negInf, negInf => posInf
  | posInf, fin q => if q = 0 then nan else if 0 < q then posInf else negInf
  | fin q, posInf => if q = 0 then nan else if 0 < q then posInf else negInf
  | negInf, fin q => if q = 0 then nan else if 0 < q then negInf else posInf
  | fin q, negInf => if q = 0 then nan else if 0 < q then negInf else posInf
  | fin a, fin b => fin (a * b)

/-- JavaScript division (negative zero is identified with zero). -/
def jsDiv : JsNum → JsNum → JsNum
  | nan, _ => nan
  | _, nan => nan
  | posInf, posInf => nan
  | posInf, negInf => nan
  | negInf, posInf => nan
  | negInf, negInf => nan
  | posInf, fin q => if 0 ≤ q then posInf else negInf
  | negInf, fin q => if 0 ≤ q then negInf else posInf
  | fin _, posInf => fin 0
  | fin _, negInf => fin 0
  | fin a, fin b =>
    if b = 0 then (if a = 0 then nan else if 0 < a then posInf else negInf)
    else fin (a / b)

/-- Truncation toward zero of a rational, as in JavaScript remainder. -/
def ratTrunc (q : ℚ) : ℤ := if 0 ≤ q then ⌊q⌋ else ⌈q⌉

/-- JavaScript remainder `%`: truncated division, sign of the dividend;
a finite value mod an infinity is the value itself. -/
def jsMod : JsNum → JsNum → JsNum
  | nan, _ => nan
  | _, nan => nan
  | posInf, _ => nan
  | negInf, _ => nan
  | fin a, posInf => fin a
  | fin a, negInf => fin a
  | fin a, fin b => if b = 0 then nan else fin (a - b * (ratTrunc (a / b) : ℚ))

/-- `Math.floor`. -/
def jsFloor : JsNum → JsNum
  | nan => nan
  | posInf => posInf
  | negInf => negInf
  | fin q => fin (⌊q⌋ : ℚ)

/-- Binary `Math.max` (NaN absorbs). -/
def jsMax : JsNum → JsNum → JsNum
  | nan, _ => nan
  | _, nan => nan
  | posInf, _ => posInf
  | _, posInf => posInf
  | negInf, b => b
  | a, negInf => a
  | fin a, fin b => fin (max a b)

/-- Binary `Math.min` (NaN absorbs). -/
def jsMin : JsNum → JsNum → JsNum
  | nan, _ => nan
  | _, nan => nan
  | negInf, _ => negInf
  | _, negInf => negInf
  | posInf, b => b
  | a, posInf => a
  | fin a, fin b => fin (min a b)

/-- Spread call `Math.max(...values)`: left fold from the identity
`-Infinity` (so the empty spread yields `-Infinity`, as in JavaScript). -/
def jsMaxList (l : List JsNum) : JsNum := l.foldl jsMax negInf

/-- Spread call `Math.min(...values)`: left fold from `+Infinity`. -/
def jsMinList (l : List JsNum) : JsNum := l.foldl jsMin posInf

/-- Short-circuit `a || b` on numbers: `b` exactly when `a` is falsy. -/
def jsOr (a b : JsNum) : JsNum := if jsTruthy a then a else b

/-- Indexing a number array where the index may be out of range: JavaScript
yields `undefined`, which the surrounding arithmetic coerces to NaN. -/
def jsAt (l : List JsNum) (i : Nat) : JsNum := (l[i]?).getD nan

/-- An `undefined`-or-number lookup result coerced to a number (as happens
when the value is stored into a tensor): `undefined` becomes NaN. -/
def jsOfUndef : Option Nat → JsNum
  | some k => fin k
  | none => nan

/-- A JavaScript number used as an array index: only a finite non-negative
integer selects an element; anything else reads `undefined`. -/
def jsToIdx : JsNum → Option Nat
  | fin q => if 0 ≤ q ∧ q.den = 1 then some q.num.toNat else none
  | _ => none

/-- Single-character `String.prototype.split`, on the character list of the
string (so splitting the empty string yields `[""]`, as in JavaScript). -/
def splitCharAux (c : Char) : List Char → List Char → List (List Char)
  | [], acc => [acc.reverse]
  | x :: xs, acc =>
    if x = c then acc.reverse :: splitCharAux c xs []
    else splitCharAux c xs (x :: acc)

/-- JavaScript `s.split(c)` for a one-character separator. -/
def jsSplit (c : Char) (s : String) : List String :=
  (splitCharAux c s.data []).map List.asString

/-- Decimal value of a digit list. -/
def natOfDigits (l : List Char) : Nat :=
  l.foldl (fun a c => a * 10 + (c.toNat - 48)) 0

/-- Longest leading digit run, or `none` when it is empty. -/
def digitsPrefixVal : List Char → Option Nat → Option Nat
  | [], acc => acc
  | c :: cs, acc =>
    if c.isDigit then digitsPrefixVal cs (some ((acc.getD 0) * 10 + (c.toNat - 48)))
    else acc

/-- Modelled JavaScript builtin `parseInt(s, 10)`: an optional sign followed
by the longest leading digit run; NaN when no digit leads.  (Leading
whitespace handling and non-decimal forms are outside the strings the
pipeline feeds it.) -/
def jsParseInt (s : String) : JsNum :=
  match s.data with
  | List.cons (Char.ofNat 45) rest =>
    match digitsPrefixVal rest none with
    | some k => fin (-(k : ℚ))
    | none => nan
  | l =>
    match digitsPrefixVal l none with
    | some k => fin k
    | none => nan

/-- Modelled JavaScript builtin `Number(s)` on the string forms the pipeline
feeds it: the empty string is 0, a (possibly negated) all-digit string is its
decimal value, and every other string is NaN.  (Fractional, exponent and hex
literal forms never arise from the `YYYY-MM` start-date field this models.) -/
def jsNumber (s : String) : JsNum :=
  match s.data with
  | [] => fin 0
  | List.cons (Char.ofNat 45) rest =>
    if rest ≠ [] ∧ rest.all Char.isDigit then fin (-(natOfDigits rest : ℚ)) else nan
  | l =>
    if l.all Char.isDigit then fin (natOfDigits l) else nan

/-- Raw record as delivered by the CSV collaborator (lines 27-31): the date
may be `undefined`/`null` (modelled `none`) or any string. -/
structure RawRecord where
  sales_date : Option String
  product_description : String
  quantity_sold : JsNum
deriving DecidableEq

/-- Clean record produced by `preprocessData` (lines 65-69). -/
structure CleanRecord where
  month : JsNum
  product_description : Nat
  quantity_sold : JsNum
deriving DecidableEq

/-- Line 51: an entry is rejected when `!entry.sales_date` (absent or empty
string) or `isNaN(entry.quantity_sold)`. -/
def isInvalidEntry (e : RawRecord) : Bool :=
  (match e.sales_date with
   | none => true
   | some s => s == "") || jsIsNaN e.quantity_sold

/-- Lines 56-58 and 66: split off the time component, split on `/`, parse
month (1st field) and year (3rd field), and form `year * 12 + month`. -/
def parseMonthIndex (sales_date : String) : JsNum :=
  let datePart := (jsSplit ' ' sales_date).headD ""
  let dateParts := jsSplit '/' datePart
  let month := jsParseInt (dateParts.headD "")
  let year :=
    match dateParts[2]? with
    | some s => jsParseInt s
    | none => nan
  jsAdd (jsMul year (fin 12)) month

/-- Association lookup in the product map (`productMap[description]`),
`none` standing for `undefined`. -/
def assocLookup : List (String × Nat) → String → Option Nat
  | [], _ => none
  | (k, v) :: rest, d => if k = d then some v else assocLookup rest d

/-- Lines 49-71: the single pass of `preprocessData` over the raw records.
It threads the product map (insertion-ordered association list) and the next
product index, and produces `null` (`none`) for rejected entries, so the
state is `(newProductMap, productIndex)` and the output mirrors
`data.map(...)` before `filter(Boolean)`. -/
def processAll :
    List RawRecord → List (String × Nat) → Nat →
      List (String × Nat) × Nat × List (Option CleanRecord)
  | [], m, n => (m, n, [])
  | e :: rest, m, n =>
    if isInvalidEntry e then
      let r := processAll rest m n
      (r.1, r.2.1, none :: r.2.2)
    else
      let d := e.product_description
      let m1 := if d ∈ m.map Prod.fst then m else m ++ [(d, n)]
      let n1 := if d ∈ m.map Prod.fst then n else n + 1
      let code := (assocLookup m1 d).getD 0
      let cr : CleanRecord :=
        { month := parseMonthIndex (e.sales_date.getD "")
          product_description := code
          quantity_sold := e.quantity_sold }
      let r := processAll rest m1 n1
      (r.1, r.2.1, some cr :: r.2.2)

/-- The clean records surviving `filter(Boolean)` (line 71). -/
def processedData (data : List RawRecord) : List CleanRecord :=
  (processAll data [] 0).2.2.filterMap id

/-- The product catalog (`newProductMap`) built by the pass. -/
def catalogMap (data : List RawRecord) : List (String × Nat) :=
  (processAll data [] 0).1

/-- The final value of the `productIndex` counter. -/
def catalogNext (data : List RawRecord) : Nat :=
  (processAll data [] 0).2.1

/-- Product descriptions of the accepted records in first-seen order,
appended to an accumulator; the spec-side characterisation of the catalog's
key order used to state claim C8. -/
def firstSeenDescs : List RawRecord → List String → List String
  | [], acc => acc
  | e :: rest, acc =>
    if isInvalidEntry e then firstSeenDescs rest acc
    else if e.product_description ∈ acc then firstSeenDescs rest acc
    else firstSeenDescs rest (acc ++ [e.product_description])

/-- Line 77: `const range = maxQuantity - minQuantity || 1`. -/
def scaleRange (maxQ minQ : JsNum) : JsNum := jsOr (jsSub maxQ minQ) (fin 1)

/-- Line 80: `(d.quantity_sold - minQuantity) / range`. -/
def normalize (maxQ minQ v : JsNum) : JsNum :=
  jsDiv (jsSub v minQ) (scaleRange maxQ minQ)

/-- Line 150: `normalizedPrediction * (maxQuantity - minQuantity) + minQuantity`
(note: the raw difference, not the guarded `range`). -/
def denormalize (maxQ minQ n : JsNum) : JsNum :=
  jsAdd (jsMul n (jsSub maxQ minQ)) minQ

/-- Denormalization as the spec's words in section 4.3 state it
(`denormalize(n) = n * range + min` with the guarded range); stated only for
comparison with the code's `denormalize`. -/
def denormalizeSpecGuarded (maxQ minQ n : JsNum) : JsNum :=
  jsAdd (jsMul n (scaleRange maxQ minQ)) minQ

/-- Result record of `preprocessData` (line 85). -/
structure PreprocessResult where
  normalizedData : List CleanRecord
  maxQuantity : JsNum
  minQuantity : JsNum
deriving DecidableEq

/-- Lines 45-86: validation/encoding pass, min/max over the quantities
(spread `Math.max`/`Math.min`), guarded range, and normalization. -/
def preprocessData (data : List RawRecord) : PreprocessResult :=
  let processed := processedData data
  let quantities := processed.map (fun d => d.quantity_sold)
  let maxQuantity := jsMaxList quantities
  let minQuantity := jsMinList quantities
  let normalizedData := processed.map (fun d =>
    { d with quantity_sold := normalize maxQuantity minQuantity d.quantity_sold })
  ⟨normalizedData, maxQuantity, minQuantity⟩

/-- The exact double value of `Math.PI`. -/
def jsPI : JsNum := fin ((884279719003555 : ℚ) / 281474976710656)

/-- The argument `(2 * Math.PI * phase) / 12` fed to `Math.sin`/`Math.cos`
(lines 91-92 and 143-144), as a function of the phase subterm. -/
def trigArg (phase : JsNum) : JsNum :=
  jsDiv (jsMul (jsMul (fin 2) jsPI) phase) (fin 12)

/-- Lines 91-92: the phase used when building a training example from the
absolute month index — `d.month % 12`. -/
def trainPhase (month : JsNum) : JsNum := jsMod month (fin 12)

/-- Lines 143-144 and 154: the phase used when building a forecast feature
vector — `nextMonth - 1`. -/
def predPhase (nextMonth : JsNum) : JsNum := jsSub nextMonth (fin 1)

/-- Lines 90-94: one row of the training tensor `xs`; `Math.sin` and
`Math.cos` are opaque parameters. -/
def trainFeatures (s c : JsNum → JsNum) (d : CleanRecord) : List JsNum :=
  [s (trigArg (trainPhase d.month)), c (trigArg (trainPhase d.month)),
   fin d.product_description]

/-- The rows of the training tensor `xs`. -/
def trainXs (s c : JsNum → JsNum) (nd : List CleanRecord) : List (List JsNum) :=
  nd.map (trainFeatures s c)

/-- Line 96: the training targets `ys`. -/
def trainYs (nd : List CleanRecord) : List JsNum :=
  nd.map (fun d => d.quantity_sold)

/-- Lines 121-134. -/
def monthNames : List String :=
  ["January", "February", "March", "April", "May", "June",
   "July", "August", "September", "October", "November", "December"]

/-- Line 138: `(month + i - 1) % 12 + 1`. -/
def nextMonthJs (month : JsNum) (i : Nat) : JsNum :=
  jsAdd (jsMod (jsSub (jsAdd month (fin i)) (fin 1)) (fin 12)) (fin 1)

/-- Line 139: `year + Math.floor((month + i - 1) / 12)`. -/
def nextYearJs (year month : JsNum) (i : Nat) : JsNum :=
  jsAdd year (jsFloor (jsDiv (jsSub (jsAdd month (fin i)) (fin 1)) (fin 12)))

/-- The horizon generator: the six `(year, month)` pairs the loop of
`predictSales` steps through. -/
def horizonPairs (year month : JsNum) : List (JsNum × JsNum) :=
  (List.range 6).map (fun i => (nextYearJs year month i, nextMonthJs month i))

/-- Forecast point (lines 153-157), with the label `"<MonthName> <Year>"`
kept as its two components before string interpolation: the month name is
`none` when `monthNames[nextMonth - 1]` reads `undefined`. -/
structure ForecastPoint where
  monthName : Option String
  year : JsNum
  product_description : String
  quantity_sold : JsNum
deriving DecidableEq

/-- Lines 141-157: the point pushed on iteration `i` (when the selected
product is truthy).  `s`, `c` are `Math.sin`/`Math.cos` and `p` is
`model.predict` restricted to one row, all opaque. -/
def predictPoint (s c : JsNum → JsNum) (p : JsNum → JsNum → JsNum → JsNum)
    (productMap : List (String × Nat)) (selectedProduct : String)
    (year month maxQuantity minQuantity : JsNum) (i : Nat) : ForecastPoint :=
  let nm := nextMonthJs month i
  let ny := nextYearJs year month i
  let productIndex := assocLookup productMap selectedProduct
  let sinMonth := s (trigArg (predPhase nm))
  let cosMonth := c (trigArg (predPhase nm))
  let normalizedPrediction := p sinMonth cosMonth (jsOfUndef productIndex)
  let quantitySold :=
    jsAdd (jsMul normalizedPrediction (jsSub maxQuantity minQuantity)) minQuantity
  { monthName := (jsToIdx (predPhase nm)).bind (fun k => monthNames[k]?)
    year := ny
    product_description := selectedProduct
    quantity_sold := quantitySold }

/-- Lines 116-162: `predictSales`.  The start date is split on `-` and both
parts go through `Number`; a missing part is `undefined`, which the month
arithmetic coerces to NaN.  The loop body pushes a point only when the
selected product is truthy (line 141). -/
def predictSales (s c : JsNum → JsNum) (p : JsNum → JsNum → JsNum → JsNum)
    (productMap : List (String × Nat)) (selectedProduct : String)
    (startDate : String) (maxQuantity minQuantity : JsNum) : List ForecastPoint :=
  let parts := (jsSplit '-' startDate).map jsNumber
  let year := jsAt parts 0
  let month := jsAt parts 1
  (List.range 6).foldl
    (fun futurePredictions i =>
      if strTruthy selectedProduct then
        futurePredictions ++
          [predictPoint s c p productMap selectedProduct year month
            maxQuantity minQuantity i]
      else futurePredictions)
    []

/-! ## Basic computation lemmas for the JavaScript-number model -/

lemma jsAdd_fin (a b : ℚ) : jsAdd (fin a) (fin b) = fin (a + b) := rfl

lemma jsSub_fin (a b : ℚ) : jsSub (fin a) (fin b) = fin (a - b) := by
  simp [jsSub, jsNeg, jsAdd, sub_eq_add_neg]

lemma jsMul_fin (a b : ℚ) : jsMul (fin a) (fin b) = fin (a * b) := rfl

lemma jsDiv_fin (a b : ℚ) (hb : b ≠ 0) : jsDiv (fin a) (fin b) = fin (a / b) := by
  simp [jsDiv, hb]

lemma jsAdd_nan_right (x : JsNum) : jsAdd x nan = nan := by
  cases x <;> rfl

lemma ratFloor_natCast_div_twelve (n : ℕ) : ⌊(n : ℚ) / 12⌋ = ((n / 12 : ℕ) : ℤ) := by
  rw [Int.floor_eq_iff]
  constructor
  · rw [le_div_iff₀ (by norm_num : (0 : ℚ) < 12)]
    exact_mod_cast Nat.div_mul_le_self n 12
  · rw [div_lt_iff₀ (by norm_num : (0 : ℚ) < 12)]
    have h : n < (n / 12 + 1) * 12 := by omega
    exact_mod_cast h

lemma ratTrunc_natCast_div_twelve (n : ℕ) :
    ratTrunc ((n : ℚ) / 12) = ((n / 12 : ℕ) : ℤ) := by
  rw [ratTrunc, if_pos (by positivity)]
  exact ratFloor_natCast_div_twelve n

lemma jsMod_natCast_twelve (n : ℕ) :
    jsMod (fin n) (fin 12) = fin ((n % 12 : ℕ) : ℚ) := by
  simp only [jsMod]
  rw [if_neg (by norm_num : ¬(12 : ℚ) = 0), ratTrunc_natCast_div_twelve]
  congr 1
  have h : (n : ℚ) = 12 * ((n / 12 : ℕ) : ℚ) + ((n % 12 : ℕ) : ℚ) := by
    exact_mod_cast (Nat.div_add_mod n 12).symm
  rw [Int.cast_natCast]
  linarith

lemma jsFloor_div_natCast_twelve (n : ℕ) :
    jsFloor (jsDiv (fin n) (fin 12)) = fin ((n / 12 : ℕ) : ℚ) := by
  rw [jsDiv_fin _ _ (by norm_num), jsFloor, ratFloor_natCast_div_twelve]
  congr 1

lemma month_shift_cast (m i : ℕ) (hm : 1 ≤ m) :
    jsSub (jsAdd (fin m) (fin i)) (fin 1) = fin ((m + i - 1 : ℕ) : ℚ) := by
  rw [jsAdd_fin, jsSub_fin]
  congr 1
  have h : 1 ≤ m + i := le_trans hm (Nat.le_add_right m i)
  push_cast [Nat.cast_sub h]
  ring

lemma nextMonthJs_natCast (m i : ℕ) (hm : 1 ≤ m) :
    nextMonthJs (fin m) i = fin (((m + i - 1) % 12 + 1 : ℕ) : ℚ) := by
  rw [nextMonthJs, month_shift_cast m i hm, jsMod_natCast_twelve, jsAdd_fin]
  congr 1
  push_cast
  ring

lemma nextYearJs_natCast (y m i : ℕ) (hm : 1 ≤ m) :
    nextYearJs (fin y) (fin m) i = fin ((y + (m + i - 1) / 12 : ℕ) : ℚ) := by
  rw [nextYearJs, month_shift_cast m i hm, jsFloor_div_natCast_twelve, jsAdd_fin]
  congr 1
  push_cast
  ring

lemma nextMonthJs_nan (i : ℕ) : nextMonthJs nan i = nan := rfl

lemma range_six : List.range 6 = [0, 1, 2, 3, 4, 5] := rfl

lemma foldl_append_singleton {α β : Type} (g : β → α) (l : List β) (a : List α) :
    l.foldl (fun acc i => acc ++ [g i]) a = a ++ l.map g := by
  induction l generalizing a with
  | nil => simp
  | cons x xs ih => simp [ih]

lemma predictSales_eq_map (s c : JsNum → JsNum) (p : JsNum → JsNum → JsNum → JsNum)
    (pm : List (String × Nat)) (sp sd : String) (mx mn : JsNum)
    (h : strTruthy sp = true) :
    predictSales s c p pm sp sd mx mn
      = (List.range 6).map
          (predictPoint s c p pm sp (jsAt ((jsSplit '-' sd).map jsNumber) 0)
            (jsAt ((jsSplit '-' sd).map jsNumber) 1) mx mn) := by
  simp only [predictSales, h, if_true, foldl_append_singleton, List.nil_append]

/-! ## Claim C1: training vs. prediction phase convention -/

/-- C1 counterexample: for calendar month January of year 2023, the phase the
training path feeds to sin/cos (`month_index % 12` with
`month_index = 2023*12 + 1`) is 1, while the prediction path's phase
(`calendar_month - 1`) is 0, so the two paths do not produce the same feature
vector for the same calendar month. -/
theorem phase_conventions_disagree_at_january :
    trainPhase (fin ((2023 * 12 + 1 : ℕ) : ℚ)) ≠ predPhase (fin ((1 : ℕ) : ℚ)) := by
  norm_num [trainPhase, predPhase, jsMod, jsSub, jsNeg, jsAdd, ratTrunc]

/-- C1 amended: for every calendar month m in 1..12 and every year, the
training phase is `m % 12` (December maps to 0, January to 1) while the
prediction phase is `m - 1` (January maps to 0); the two phases are never
equal, so the two month-to-phase derivations disagree for every calendar
month. -/
theorem phase_conventions_amended (y m : ℕ) (h1 : 1 ≤ m) (h2 : m ≤ 12) :
    trainPhase (fin ((y * 12 + m : ℕ) : ℚ)) = fin ((m % 12 : ℕ) : ℚ)
    ∧ predPhase (fin ((m : ℕ) : ℚ)) = fin ((m : ℚ) - 1)
    ∧ trainPhase (fin ((y * 12 + m : ℕ) : ℚ)) ≠ predPhase (fin ((m : ℕ) : ℚ)) := by
  have e1 : trainPhase (fin ((y * 12 + m : ℕ) : ℚ)) = fin ((m % 12 : ℕ) : ℚ) := by
    have hmod : (y * 12 + m) % 12 = m % 12 := by omega
    rw [trainPhase, jsMod_natCast_twelve, hmod]
  have e2 : predPhase (fin ((m : ℕ) : ℚ)) = fin ((m : ℚ) - 1) := by
    rw [predPhase, jsSub_fin]
  refine ⟨e1, e2, ?_⟩
  rw [e1, e2]
  intro heq
  rw [JsNum.fin.injEq] at heq
  have hq : ((m % 12 : ℕ) : ℚ) + 1 = (m : ℚ) := by linarith
  have hn : m % 12 + 1 = m := by exact_mod_cast hq
  omega

/-- C1 witness: the amended statement at year 2023, month 1. -/
theorem phase_conventions_amended_witness :
    trainPhase (fin ((2023 * 12 + 1 : ℕ) : ℚ)) = fin ((1 % 12 : ℕ) : ℚ)
    ∧ predPhase (fin ((1 : ℕ) : ℚ)) = fin (((1 : ℕ) : ℚ) - 1)
    ∧ trainPhase (fin ((2023 * 12 + 1 : ℕ) : ℚ)) ≠ predPhase (fin ((1 : ℕ) : ℚ)) :=
  phase_conventions_amended 2023 1 (by norm_num) (by norm_num)

/-! ## Claim C7: the horizon generator -/

/-- C7: for a start (year, month) with month in 1..12, the i-th horizon pair
is `(year + (month+i-1)/12, (month+i-1) % 12 + 1)` for i = 0..5; the pairs
are consecutive calendar months (month index `12*year + month + i`), hence
ascending with no gaps or duplicates; and from (2023, 11) the generator
yields November 2023 through April 2024. -/
theorem horizon_generator_correct (y m : ℕ) (h1 : 1 ≤ m) (h2 : m ≤ 12) :
    horizonPairs (fin y) (fin m)
      = (List.range 6).map (fun i =>
          (fin ((y + (m + i - 1) / 12 : ℕ) : ℚ), fin (((m + i - 1) % 12 + 1 : ℕ) : ℚ)))
    ∧ ((List.range 6).map (fun i => 12 * (y + (m + i - 1) / 12) + ((m + i - 1) % 12 + 1))
        = (List.range 6).map (fun i => 12 * y + m + i))
    ∧ horizonPairs (fin 2023) (fin 11)
      = [(fin 2023, fin 11), (fin 2023, fin 12), (fin 2024, fin 1),
         (fin 2024, fin 2), (fin 2024, fin 3), (fin 2024, fin 4)] := by
  refine ⟨?_, ?_, ?_⟩
  · unfold horizonPairs
    apply List.map_congr_left
    intro i _
    rw [nextMonthJs_natCast m i h1, nextYearJs_natCast y m i h1]
  · apply List.map_congr_left
    intro i _
    omega
  · rw [horizonPairs, range_six]
    norm_num [nextMonthJs, nextYearJs, jsAdd, jsSub, jsNeg, jsMod, jsDiv, jsFloor, ratTrunc]

/-- C7 witness: the horizon statement at start (2023, 11). -/
theorem horizon_generator_correct_witness :
    horizonPairs (fin 2023) (fin 11)
      = (List.range 6).map (fun i =>
          (fin ((2023 + (11 + i - 1) / 12 : ℕ) : ℚ), fin (((11 + i - 1) % 12 + 1 : ℕ) : ℚ)))
    ∧ ((List.range 6).map (fun i => 12 * (2023 + (11 + i - 1) / 12) + ((11 + i - 1) % 12 + 1))
        = (List.range 6).map (fun i => 12 * 2023 + 11 + i))
    ∧ horizonPairs (fin 2023) (fin 11)
      = [(fin 2023, fin 11), (fin 2023, fin 12), (fin 2024, fin 1),
         (fin 2024, fin 2), (fin 2024, fin 3), (fin 2024, fin 4)] :=
  horizon_generator_correct 2023 11 (by norm_num) (by norm_num)

/-! ## Claim C10: falsy selected product -/

/-- C10: when the selected product is the empty string (falsy), the six loop
iterations of `predictSales` push nothing: the result is the empty sequence,
with no error raised. -/
theorem empty_selection_yields_empty_predictions (s c : JsNum → JsNum)
    (p : JsNum → JsNum → JsNum → JsNum) (pm : List (String × Nat)) (sd : String)
    (mx mn : JsNum) :
    predictSales s c p pm "" sd mx mn = [] := rfl

/-! ## Claim C6: empty validated training set -/

/-- C6 counterexample: on an empty raw dataset `preprocessData` does not fail
with a "no training data" error; it returns normally, with an empty training
set and the degenerate scale parameters `maxQuantity = -Infinity`,
`minQuantity = +Infinity` (the spread `Math.max()`/`Math.min()` of no
arguments). -/
theorem empty_training_set_no_error :
    preprocessData [] = ⟨[], negInf, posInf⟩ := rfl

/-- C6 amended: whenever the validated training set is empty, `preprocessData`
raises no error at all: it returns an empty normalized training set together
with the defined-but-degenerate scale parameters `maxQuantity = -Infinity`
and `minQuantity = +Infinity`. -/
theorem empty_training_set_amended (data : List RawRecord)
    (h : processedData data = []) :
    preprocessData data = ⟨[], negInf, posInf⟩ := by
  simp [preprocessData, h, jsMaxList, jsMinList]

/-- C6 witness: the amended statement on a dataset whose single record is
rejected (absent sales date). -/
theorem empty_training_set_amended_witness :
    preprocessData [⟨none, "A", fin 1⟩] = ⟨[], negInf, posInf⟩ :=
  empty_training_set_amended [⟨none, "A", fin 1⟩] rfl

/-! ## Claim C3: the two directions of scaling -/

/-- C3 counterexample: with `max = min = 5`, the code's denormalization of 1
multiplies by the raw difference `max - min = 0` and yields 5, while the
spec's guarded formula `n * max(max-min, 1) + min` yields 6 — so scaling does
not use one guarded range for both directions. -/
theorem denormalize_unguarded_at_degenerate_range :
    denormalize (fin 5) (fin 5) (fin 1) = fin 5
    ∧ denormalizeSpecGuarded (fin 5) (fin 5) (fin 1) = fin 6
    ∧ denormalize (fin 5) (fin 5) (fin 1) ≠ denormalizeSpecGuarded (fin 5) (fin 5) (fin 1) := by
  norm_num [denormalize, denormalizeSpecGuarded, scaleRange, jsOr, jsTruthy,
    jsAdd, jsMul, jsSub, jsNeg]

/-- C3 amended: `normalize` divides by the guarded range, but `denormalize`
multiplies by the raw difference `max - min`; the two directions agree
whenever `max ≠ min`, and when `max = min` the code's denormalize collapses
every normalized value to `min`. -/
theorem scaler_directions_amended (mx mn v : ℚ) (h : mx ≠ mn) :
    denormalize (fin mx) (fin mn) (fin v) = denormalizeSpecGuarded (fin mx) (fin mn) (fin v)
    ∧ denormalize (fin mx) (fin mx) (fin v) = fin mx := by
  constructor
  · rw [denormalize, denormalizeSpecGuarded]
    congr 2
    rw [scaleRange, jsSub_fin, jsOr, if_pos]
    simp [jsTruthy, sub_ne_zero.2 h]
  · rw [denormalize, jsSub_fin, jsMul_fin, jsAdd_fin]
    congr 1
    ring

/-- C3 witness: the amended statement at max 1, min 0, value 5. -/
theorem scaler_directions_amended_witness :
    denormalize (fin 1) (fin 0) (fin 5) = denormalizeSpecGuarded (fin 1) (fin 0) (fin 5)
    ∧ denormalize (fin 1) (fin 1) (fin 5) = fin 1 :=
  scaler_directions_amended 1 0 5 (by norm_num)

/-! ## Claim C4: normalization round-trip on training data -/

lemma foldl_jsMax_fin (l : List ℚ) : ∀ a : ℚ,
    (l.map fin).foldl jsMax (fin a) = fin (l.foldl max a) := by
  induction l with
  | nil => intro a; rfl
  | cons x xs ih => intro a; exact ih (max a x)

lemma foldl_jsMin_fin (l : List ℚ) : ∀ a : ℚ,
    (l.map fin).foldl jsMin (fin a) = fin (l.foldl min a) := by
  induction l with
  | nil => intro a; rfl
  | cons x xs ih => intro a; exact ih (min a x)

lemma jsMaxList_map_fin (x : ℚ) (l : List ℚ) :
    jsMaxList ((x :: l).map fin) = fin (l.foldl max x) := by
  simpa [jsMaxList, jsMax] using foldl_jsMax_fin l x

lemma jsMinList_map_fin (x : ℚ) (l : List ℚ) :
    jsMinList ((x :: l).map fin) = fin (l.foldl min x) := by
  simpa [jsMinList, jsMin] using foldl_jsMin_fin l x

lemma le_foldl_max (l : List ℚ) : ∀ a : ℚ, a ≤ l.foldl max a := by
  induction l with
  | nil => intro a; exact le_refl a
  | cons x xs ih => intro a; exact le_trans (le_max_left a x) (ih (max a x))

lemma foldl_min_le (l : List ℚ) : ∀ a : ℚ, l.foldl min a ≤ a := by
  induction l with
  | nil => intro a; exact le_refl a
  | cons x xs ih => intro a; exact le_trans (ih (min a x)) (min_le_left a x)

lemma mem_le_foldl_max (l : List ℚ) : ∀ (a q : ℚ), q ∈ l → q ≤ l.foldl max a := by
  induction l with
  | nil => intro a q h; cases h
  | cons x xs ih =>
    intro a q h
    rcases List.mem_cons.1 h with h | h
    · subst h
      exact le_trans (le_max_right a q) (le_foldl_max xs (max a q))
    · exact ih (max a x) q h

lemma foldl_min_le_mem (l : List ℚ) : ∀ (a q : ℚ), q ∈ l → l.foldl min a ≤ q := by
  induction l with
  | nil => intro a q h; cases h
  | cons x xs ih =>
    intro a q h
    rcases List.mem_cons.1 h with h | h
    · subst h
      exact le_trans (foldl_min_le xs (min a q)) (min_le_right a q)
    · exact ih (min a x) q h

/-- C4: for every nonempty list of training quantities and every quantity q
in it, normalizing with the fitted min/max and the guarded range and then
denormalizing with the code's raw-difference formula returns exactly q —
also in the degenerate case where all quantities are equal (then q = min and
both the guard and the zero factor collapse the expression to min = q). -/
theorem normalization_round_trip (qs : List ℚ) (q : ℚ) (hq : q ∈ qs) :
    denormalize (jsMaxList (qs.map fin)) (jsMinList (qs.map fin))
      (normalize (jsMaxList (qs.map fin)) (jsMinList (qs.map fin)) (fin q)) = fin q := by
  cases qs with
  | nil => cases hq
  | cons x xs =>
    rw [jsMaxList_map_fin, jsMinList_map_fin]
    set M := xs.foldl max x with hM
    set mn := xs.foldl min x with hmn
    have hqM : q ≤ M := by
      rcases List.mem_cons.1 hq with h | h
      · subst h; exact le_foldl_max xs q
      · exact mem_le_foldl_max xs x q h
    have hmq : mn ≤ q := by
      rcases List.mem_cons.1 hq with h | h
      · subst h; exact foldl_min_le xs q
      · exact foldl_min_le_mem xs x q h
    rw [normalize, scaleRange, jsSub_fin, jsSub_fin, jsOr]
    by_cases h : M - mn = 0
    · rw [if_neg (by simp [jsTruthy, h])]
      have hq' : q = mn := le_antisymm (by linarith) hmq
      rw [jsDiv_fin _ _ (by norm_num), denormalize, jsSub_fin, jsMul_fin, jsAdd_fin]
      rw [hq']
      congr 1
      rw [show M - mn = 0 from h]
      ring
    · rw [if_pos (by simp [jsTruthy, h])]
      rw [jsDiv_fin _ _ h, denormalize, jsSub_fin, jsMul_fin, jsAdd_fin]
      congr 1
      field_simp

/-- C4 witness: the round trip at the training set {10, 20, 15} and q = 10. -/
theorem normalization_round_trip_witness :
    denormalize (jsMaxList ([10, 20, 15].map fin)) (jsMinList ([10, 20, 15].map fin))
      (normalize (jsMaxList ([10, 20, 15].map fin)) (jsMinList ([10, 20, 15].map fin))
        (fin 10)) = fin 10 :=
  normalization_round_trip [10, 20, 15] 10 (by norm_num)

/-! ## Claim C5: the record-validator invariant -/

lemma processAll_sound (data : List RawRecord) :
    ∀ m n, ∀ r ∈ (processAll data m n).2.2.filterMap id,
      ∃ e ∈ data, isInvalidEntry e = false
        ∧ r.quantity_sold = e.quantity_sold
        ∧ r.month = parseMonthIndex (e.sales_date.getD "") := by
  induction data with
  | nil =>
    intro m n r hr
    simp [processAll] at hr
  | cons e rest ih =>
    intro m n r hr
    by_cases he : isInvalidEntry e
    · rw [show processAll (e :: rest) m n
          = ((processAll rest m n).1, (processAll rest m n).2.1,
             none :: (processAll rest m n).2.2) by simp [processAll, he]] at hr
      simp only [List.filterMap_cons] at hr
      obtain ⟨a, ha, h1, h2, h3⟩ := ih m n r hr
      exact ⟨a, List.mem_cons_of_mem e ha, h1, h2, h3⟩
    · rw [show processAll (e :: rest) m n
          = (let m1 := if e.product_description ∈ m.map Prod.fst then m
                       else m ++ [(e.product_description, n)]
             let n1 := if e.product_description ∈ m.map Prod.fst then n else n + 1
             ((processAll rest m1 n1).1, (processAll rest m1 n1).2.1,
              some { month := parseMonthIndex (e.sales_date.getD "")
                     product_description := (assocLookup m1 e.product_description).getD 0
                     quantity_sold := e.quantity_sold }
                :: (processAll rest m1 n1).2.2)) by
            simp only [processAll, he, if_false, Bool.false_eq_true]] at hr
      simp only [List.filterMap_cons, Option.some.injEq, id] at hr
      rcases List.mem_cons.1 hr with h | h
      · subst h
        exact ⟨e, List.mem_cons_self e rest, by simpa using he, rfl, rfl⟩
      · obtain ⟨a, ha, h1, h2, h3⟩ := ih _ _ r h
        exact ⟨a, List.mem_cons_of_mem e ha, h1, h2, h3⟩

/-- C5 counterexample: the raw record ("garbage", "A", -5) passes validation
(its date is truthy and -5 is not NaN), and is emitted with quantity_sold
-5 < 0 and month_index NaN — so the emitted records are neither guaranteed
non-negative nor derived from a parsable date prefix. -/
theorem validator_admits_negative_and_unparsable :
    processedData [⟨some "garbage", "A", fin (-5)⟩] = [⟨nan, 0, fin (-5)⟩]
    ∧ (-5 : ℚ) < 0 := by
  refine ⟨rfl, by norm_num⟩

/-- C5 amended: every record emitted by the validation pass stems from an
input entry that passed the check (truthy sales_date and not-NaN quantity):
its quantity_sold is the entry's quantity unchanged — hence never NaN,
though possibly negative or infinite — and its month_index is
`year*12 + month` parsed from the first and third `/`-separated fields of
the date prefix (NaN when unparsable); an entry with an absent/empty
sales_date or NaN quantity is discarded without failing the batch. -/
theorem validator_invariant_amended (data : List RawRecord) :
    (∀ r ∈ processedData data,
        r.quantity_sold ≠ nan
        ∧ ∃ e ∈ data, isInvalidEntry e = false
            ∧ r.quantity_sold = e.quantity_sold
            ∧ r.month = parseMonthIndex (e.sales_date.getD ""))
    ∧ ∀ e : RawRecord, isInvalidEntry e = true →
        processedData (e :: data) = processedData data := by
  constructor
  · intro r hr
    obtain ⟨e, he, hval, hq, hm⟩ := processAll_sound data [] 0 r hr
    refine ⟨?_, e, he, hval, hq, hm⟩
    rw [hq]
    intro hcontra
    rw [isInvalidEntry] at hval
    simp only [Bool.or_eq_false_iff] at hval
    rw [hcontra] at hval
    exact absurd hval.2 (by simp [jsIsNaN])
  · intro e he
    simp [processedData, processAll, he]

/-- C5 witness: the amended statement on a two-record batch — the record with
a parsable date and quantity 10 is emitted tied to its source entry, and a
record with an absent date is discarded. -/
theorem validator_invariant_amended_witness :
    ((⟨fin ((2023 * 12 + 1 : ℕ) : ℚ), 0, fin 10⟩ : CleanRecord).quantity_sold ≠ nan
      ∧ ∃ e ∈ [(⟨some "1/15/2023", "A", fin 10⟩ : RawRecord)], isInvalidEntry e = false
          ∧ (⟨fin ((2023 * 12 + 1 : ℕ) : ℚ), 0, fin 10⟩ : CleanRecord).quantity_sold
              = e.quantity_sold
          ∧ (⟨fin ((2023 * 12 + 1 : ℕ) : ℚ), 0, fin 10⟩ : CleanRecord).month
              = parseMonthIndex (e.sales_date.getD ""))
    ∧ processedData [⟨none, "B", fin 1⟩, ⟨some "1/15/2023", "A", fin 10⟩]
        = processedData [⟨some "1/15/2023", "A", fin 10⟩] := by
  refine ⟨(validator_invariant_amended [⟨some "1/15/2023", "A", fin 10⟩]).1 _ ?_,
    (validator_invariant_amended [⟨some "1/15/2023", "A", fin 10⟩]).2 _ rfl⟩
  show _ ∈ processedData [⟨some "1/15/2023", "A", fin 10⟩]
  have hval : processedData [⟨some "1/15/2023", "A", fin 10⟩]
      = [⟨fin ((2023 * 12 + 1 : ℕ) : ℚ), 0, fin 10⟩] := by
    rw [show processedData [⟨some "1/15/2023", "A", fin 10⟩]
        = [⟨jsAdd (jsMul (fin 2023) (fin 12)) (fin 1), 0, fin 10⟩] from rfl]
    rw [jsMul_fin, jsAdd_fin]
    norm_num
  rw [hval]
  exact List.mem_singleton.2 rfl

/-! ## Claim C8: product-encoding stability -/

lemma processAll_snd_range (data : List RawRecord) :
    ∀ (m : List (String × Nat)) (n : Nat), m.map Prod.snd = List.range n →
      (processAll data m n).1.map Prod.snd = List.range (processAll data m n).2.1 := by
  induction data with
  | nil =>
    intro m n h
    simpa [processAll] using h
  | cons e rest ih =>
    intro m n h
    by_cases he : isInvalidEntry e
    · simp only [processAll, he, if_true]
      exact ih m n h
    · simp only [processAll, he, if_false, Bool.false_eq_true]
      by_cases hd : e.product_description ∈ m.map Prod.fst
      · simp only [hd, if_true]
        exact ih m n h
      · simp only [hd, if_false]
        apply ih
        rw [List.map_append, h]
        simp [List.range_succ]

lemma processAll_fst_firstSeen (data : List RawRecord) :
    ∀ (m : List (String × Nat)) (n : Nat),
      (processAll data m n).1.map Prod.fst = firstSeenDescs data (m.map Prod.fst) := by
  induction data with
  | nil =>
    intro m n
    simp [processAll, firstSeenDescs]
  | cons e rest ih =>
    intro m n
    by_cases he : isInvalidEntry e
    · simp only [processAll, firstSeenDescs, he, if_true]
      exact ih m n
    · by_cases hd : e.product_description ∈ m.map Prod.fst
      · simp only [processAll, firstSeenDescs, he, hd, if_true, if_false,
          Bool.false_eq_true]
        exact ih m n
      · simp only [processAll, firstSeenDescs, he, hd, if_false, Bool.false_eq_true]
        rw [ih]
        congr 1
        simp

lemma firstSeenDescs_nodup (data : List RawRecord) :
    ∀ acc : List String, acc.Nodup → (firstSeenDescs data acc).Nodup := by
  induction data with
  | nil =>
    intro acc h
    simpa [firstSeenDescs] using h
  | cons e rest ih =>
    intro acc h
    by_cases he : isInvalidEntry e
    · simp only [firstSeenDescs, he, if_true]
      exact ih acc h
    · by_cases hd : e.product_description ∈ acc
      · simp only [firstSeenDescs, he, hd, if_true, if_false, Bool.false_eq_true]
        exact ih acc h
      · simp only [firstSeenDescs, he, hd, if_false, Bool.false_eq_true]
        apply ih
        simp [List.nodup_append, h, hd]

lemma assoc_value_unique (m : List (String × Nat)) (hm : (m.map Prod.fst).Nodup) :
    ∀ d c1 c2, (d, c1) ∈ m → (d, c2) ∈ m → c1 = c2 := by
  induction m with
  | nil =>
    intro d c1 c2 h1
    cases h1
  | cons p rest ih =>
    intro d c1 c2 h1 h2
    rw [List.map_cons, List.nodup_cons] at hm
    rcases List.mem_cons.1 h1 with h1 | h1 <;> rcases List.mem_cons.1 h2 with h2 | h2
    · exact congrArg Prod.snd (h1.trans h2.symm)
    · exfalso
      apply hm.1
      rw [show p.1 = d from congrArg Prod.fst h1.symm]
      exact List.mem_map.2 ⟨(d, c2), h2, rfl⟩
    · exfalso
      apply hm.1
      rw [show p.1 = d from congrArg Prod.fst h2.symm]
      exact List.mem_map.2 ⟨(d, c1), h1, rfl⟩
    · exact ih hm.2 d c1 c2 h1 h2

/-- C8: within one catalog build over any record sequence, the assigned codes
are exactly 0, 1, 2, ... in catalog order (dense from 0, monotonically
increasing, never reused, next counter = catalog size), the catalog keys are
the accepted records' product descriptions in first-seen order with no
duplicates, and a description maps to exactly one code (so encoding the same
description twice yields the same code).  Determinism across runs is
immediate: the build is a pure function of the record sequence. -/
theorem encoder_first_seen_dense (data : List RawRecord) :
    (catalogMap data).map Prod.snd = List.range (catalogNext data)
    ∧ (catalogMap data).map Prod.fst = firstSeenDescs data []
    ∧ ((catalogMap data).map Prod.fst).Nodup
    ∧ ∀ d c1 c2, (d, c1) ∈ catalogMap data → (d, c2) ∈ catalogMap data → c1 = c2 := by
  have hsnd : (catalogMap data).map Prod.snd = List.range (catalogNext data) :=
    processAll_snd_range data [] 0 (by simp)
  have hfst : (catalogMap data).map Prod.fst = firstSeenDescs data [] := by
    simpa using processAll_fst_firstSeen data [] 0
  have hnodup : ((catalogMap data).map Prod.fst).Nodup := by
    rw [hfst]
    exact firstSeenDescs_nodup data [] List.nodup_nil
  exact ⟨hsnd, hfst, hnodup, assoc_value_unique (catalogMap data) hnodup⟩

/-- C8 witness: the catalog facts on a batch in which product "A" appears
twice around product "B", including the uniqueness of the code of "A". -/
theorem encoder_first_seen_dense_witness :
    (catalogMap [⟨some "1/15/2023", "A", fin 1⟩, ⟨some "2/15/2023", "B", fin 2⟩,
        ⟨some "3/15/2023", "A", fin 3⟩]).map Prod.snd
      = List.range (catalogNext [⟨some "1/15/2023", "A", fin 1⟩,
          ⟨some "2/15/2023", "B", fin 2⟩, ⟨some "3/15/2023", "A", fin 3⟩])
    ∧ (catalogMap [⟨some "1/15/2023", "A", fin 1⟩, ⟨some "2/15/2023", "B", fin 2⟩,
        ⟨some "3/15/2023", "A", fin 3⟩]).map Prod.fst
      = firstSeenDescs [⟨some "1/15/2023", "A", fin 1⟩, ⟨some "2/15/2023", "B", fin 2⟩,
          ⟨some "3/15/2023", "A", fin 3⟩] []
    ∧ ((catalogMap [⟨some "1/15/2023", "A", fin 1⟩, ⟨some "2/15/2023", "B", fin 2⟩,
        ⟨some "3/15/2023", "A", fin 3⟩]).map Prod.fst).Nodup
    ∧ (0 : ℕ) = 0 := by
  have h := encoder_first_seen_dense [⟨some "1/15/2023", "A", fin 1⟩,
    ⟨some "2/15/2023", "B", fin 2⟩, ⟨some "3/15/2023", "A", fin 3⟩]
  exact ⟨h.1, h.2.1, h.2.2.1,
    h.2.2.2 "A" 0 0 (List.mem_cons_self _ _) (List.mem_cons_self _ _)⟩

/-! ## Claim C2: unknown selected product -/

/-- C2 counterexample: with catalog {"A" ↦ 0} and selected product "B" (not
in the catalog), `predictSales` raises no "unknown product" error — it
returns six forecast points for "B" (here with a constant model), built from
the `undefined` product code. -/
theorem unknown_product_returns_predictions :
    predictSales (fun _ => fin 0) (fun _ => fin 0) (fun _ _ _ => fin 0)
      [("A", 0)] "B" "2023-04" (fin 10) (fin 0)
    = [⟨some "April", fin 2023, "B", fin 0⟩, ⟨some "May", fin 2023, "B", fin 0⟩,
       ⟨some "June", fin 2023, "B", fin 0⟩, ⟨some "July", fin 2023, "B", fin 0⟩,
       ⟨some "August", fin 2023, "B", fin 0⟩, ⟨some "September", fin 2023, "B", fin 0⟩] := by
  rw [predictSales_eq_map _ _ _ _ _ _ _ _ (by rfl)]
  have h1 : jsAt ((jsSplit '-' "2023-04").map jsNumber) 0 = fin 2023 := rfl
  have h2 : jsAt ((jsSplit '-' "2023-04").map jsNumber) 1 = fin 4 := rfl
  rw [h1, h2, range_six]
  norm_num [predictPoint, nextMonthJs, nextYearJs, predPhase, jsToIdx, jsOfUndef,
    assocLookup, monthNames, jsAdd, jsSub, jsNeg, jsMul, jsDiv, jsMod, jsFloor,
    ratTrunc, trigArg, jsPI]
  decide

/-- C2 amended: when the selected product is truthy but absent from the
catalog, `predictSales` does not fail: it still emits six forecast points,
all carrying the unknown product's name, and the product feature fed to the
model is the NaN coercion of the `undefined` lookup result. -/
theorem unknown_product_amended (s c : JsNum → JsNum) (p : JsNum → JsNum → JsNum → JsNum)
    (pm : List (String × Nat)) (sp sd : String) (mx mn : JsNum)
    (hsp : sp ≠ "") (hlk : assocLookup pm sp = none) :
    (predictSales s c p pm sp sd mx mn).length = 6
    ∧ (∀ pt ∈ predictSales s c p pm sp sd mx mn, pt.product_description = sp)
    ∧ jsOfUndef (assocLookup pm sp) = nan := by
  have ht : strTruthy sp = true := by simp [strTruthy, hsp]
  rw [predictSales_eq_map _ _ _ _ _ _ _ _ ht]
  refine ⟨by simp, ?_, by rw [hlk]; rfl⟩
  intro pt hpt
  obtain ⟨i, hi, rfl⟩ := List.mem_map.1 hpt
  rfl

/-- C2 witness: the amended statement at catalog {"A" ↦ 0}, selected product
"B", start date "2023-04" and a constant model. -/
theorem unknown_product_amended_witness :
    (predictSales (fun _ => fin 0) (fun _ => fin 0) (fun _ _ _ => fin 0)
        [("A", 0)] "B" "2023-04" (fin 10) (fin 0)).length = 6
    ∧ (∀ pt ∈ predictSales (fun _ => fin 0) (fun _ => fin 0) (fun _ _ _ => fin 0)
        [("A", 0)] "B" "2023-04" (fin 10) (fin 0), pt.product_description = "B")
    ∧ jsOfUndef (assocLookup [("A", 0)] "B") = nan :=
  unknown_product_amended _ _ _ _ _ _ _ _ (by decide) rfl

/-! ## Claim C9: unparsable start date -/

/-- C9 counterexample: with start date "garbage" (not of the form YYYY-MM)
and a selected product present in the catalog, `predictSales` does not abort
with an InvalidStartDate failure — it returns six garbage forecast points
whose month name is `undefined` and whose year is NaN. -/
theorem invalid_start_date_returns_predictions :
    predictSales (fun _ => fin 0) (fun _ => fin 0) (fun _ _ _ => fin 0)
      [("A", 0)] "A" "garbage" (fin 10) (fin 0)
    = List.replicate 6 ⟨none, nan, "A", fin 0⟩ := by
  rw [predictSales_eq_map _ _ _ _ _ _ _ _ (by rfl)]
  have h1 : jsAt ((jsSplit '-' "garbage").map jsNumber) 0 = nan := rfl
  have h2 : jsAt ((jsSplit '-' "garbage").map jsNumber) 1 = nan := rfl
  rw [h1, h2, range_six]
  norm_num [predictPoint, nextMonthJs, nextYearJs, predPhase, jsToIdx, jsOfUndef,
    assocLookup, monthNames, jsAdd, jsSub, jsNeg, jsMul, jsDiv, jsMod, jsFloor,
    ratTrunc, trigArg, jsPI, List.replicate]

/-- C9 amended: when the month part of the start date parses to NaN (as for
any string not of the YYYY-MM shape) and a product is selected, the run is
not aborted: `predictSales` still emits six forecast points, each with an
undefined month name and a NaN year. -/
theorem invalid_start_date_amended (s c : JsNum → JsNum)
    (p : JsNum → JsNum → JsNum → JsNum) (pm : List (String × Nat))
    (sp sd : String) (mx mn : JsNum) (hsp : sp ≠ "")
    (hmonth : jsAt ((jsSplit '-' sd).map jsNumber) 1 = nan) :
    (predictSales s c p pm sp sd mx mn).length = 6
    ∧ ∀ pt ∈ predictSales s c p pm sp sd mx mn,
        pt.monthName = none ∧ pt.year = nan := by
  have ht : strTruthy sp = true := by simp [strTruthy, hsp]
  rw [predictSales_eq_map _ _ _ _ _ _ _ _ ht, hmonth]
  refine ⟨by simp, ?_⟩
  intro pt hpt
  obtain ⟨i, hi, rfl⟩ := List.mem_map.1 hpt
  constructor
  · rfl
  · show jsAdd _ (jsFloor (jsDiv (jsSub (jsAdd nan (fin (i : ℚ))) (fin 1)) (fin 12))) = nan
    rw [show jsFloor (jsDiv (jsSub (jsAdd nan (fin (i : ℚ))) (fin 1)) (fin 12)) = nan
        from rfl]
    exact jsAdd_nan_right _

/-- C9 witness: the amended statement at start date "garbage", catalog
{"A" ↦ 0}, selected product "A" and a constant model. -/
theorem invalid_start_date_amended_witness :
    (predictSales (fun _ => fin 0) (fun _ => fin 0) (fun _ _ _ => fin 0)
        [("A", 0)] "A" "garbage" (fin 10) (fin 0)).length = 6
    ∧ ∀ pt ∈ predictSales (fun _ => fin 0) (fun _ => fin 0) (fun _ _ _ => fin 0)
        [("A", 0)] "A" "garbage" (fin 10) (fin 0),
        pt.monthName = none ∧ pt.year = nan :=
  invalid_start_date_amended _ _ _ _ _ _ _ _ (by decide) rfl

end PurchaseForecast
